import Mathlib

/-!
Verification of the voice-chat audio data plane against its specification.

The definitions below are a shallow embedding of the Rust sources under
`src/backend/src/audio/` (packet.rs, buffer.rs, mixer.rs, router.rs).
Machine integers are modelled as `Nat` with explicit `% 2^w` at the points
where the wire format fixes a width; byte strings are `List Nat` whose
entries are bytes; fallible operations return `Option`.  The floating-point
mixer arithmetic (`f32` in the source) is idealised as exact real
arithmetic.
-/

namespace VoiceChat

/-- Packet types, from `PacketType` in packet.rs (discriminants 0..4). -/
inductive PacketType where
  | Audio
  | Silence
  | AudioStart
  | AudioStop
  | Sync
deriving DecidableEq, Repr

/-- Discriminant of a packet type, as assigned in packet.rs (`Audio = 0`, ...).
bincode serialises a unit enum variant as this index, as a little-endian u32. -/
def PacketType.variantIndex : PacketType → Nat
  | .Audio => 0
  | .Silence => 1
  | .AudioStart => 2
  | .AudioStop => 3
  | .Sync => 4

/-- Little-endian byte encoding of a u16. -/
def u16LE (n : Nat) : List Nat :=
  [n % 256, n / 256 % 256]

/-- Little-endian byte encoding of a u32. -/
def u32LE (n : Nat) : List Nat :=
  [n % 256, n / 256 % 256, n / 256 ^ 2 % 256, n / 256 ^ 3 % 256]

/-- Little-endian byte encoding of a u64. -/
def u64LE (n : Nat) : List Nat :=
  [n % 256, n / 256 % 256, n / 256 ^ 2 % 256, n / 256 ^ 3 % 256,
   n / 256 ^ 4 % 256, n / 256 ^ 5 % 256, n / 256 ^ 6 % 256, n / 256 ^ 7 % 256]

/-- Value of a little-endian byte string. -/
def leVal (bs : List Nat) : Nat :=
  bs.foldr (fun b acc => b + 256 * acc) 0

/-- A `Uuid` is modelled as its 16 raw bytes. -/
abbrev Uuid := List Nat

/-- The audio packet header, from `AudioHeader` in packet.rs.  The `Uuid`
fields are modelled as their 16 raw bytes. -/
structure AudioHeader where
  packet_type : PacketType
  user_id : Uuid
  channel_id : Uuid
  sequence : Nat
  timestamp : Nat
  payload_size : Nat
  sample_rate : Nat
  channels : Nat
  reserved : List Nat
deriving DecidableEq, Repr

/-- A complete audio packet, from `AudioPacket` in packet.rs. -/
structure AudioPacket where
  header : AudioHeader
  payload : List Nat
deriving DecidableEq, Repr

/-- Representation bounds that the Rust types enforce: `Uuid` is 16 bytes,
`reserved` is `[u8; 3]`, and each integer field fits its declared width. -/
def AudioHeader.WF (h : AudioHeader) : Prop :=
  h.user_id.length = 16 ∧ h.channel_id.length = 16 ∧ h.reserved.length = 3 ∧
  h.sequence < 2 ^ 32 ∧ h.timestamp < 2 ^ 64 ∧ h.payload_size < 2 ^ 16 ∧
  h.sample_rate < 2 ^ 32 ∧ h.channels < 2 ^ 8

instance (h : AudioHeader) : Decidable h.WF := by
  unfold AudioHeader.WF; infer_instance

/-- A packet is well formed when its header is representable and the declared
`payload_size` matches the payload length. -/
def AudioPacket.WF (p : AudioPacket) : Prop :=
  p.header.WF ∧ p.header.payload_size = p.payload.length

instance (p : AudioPacket) : Decidable p.WF := by
  unfold AudioPacket.WF; infer_instance

/-- Serialisation of the header, from `AudioHeader::to_bytes` in packet.rs.
The source calls `bincode::serialize`, whose (bincode 1.x, default options)
output is: the enum variant index as a little-endian u32, each `Uuid` as a
little-endian u64 byte-length followed by its 16 raw bytes, the integer
fields little-endian fixed-width, and the `[u8; 3]` array as 3 raw bytes. -/
def AudioHeader.to_bytes (h : AudioHeader) : List Nat :=
  u32LE h.packet_type.variantIndex ++
  u64LE h.user_id.length ++ h.user_id ++
  u64LE h.channel_id.length ++ h.channel_id ++
  u32LE h.sequence ++ u64LE h.timestamp ++ u16LE h.payload_size ++
  u32LE h.sample_rate ++ [h.channels % 256] ++ h.reserved

/-- Serialisation of a whole packet, from `AudioPacket::to_bytes`:
header bytes followed by the payload. -/
def AudioPacket.to_bytes (p : AudioPacket) : List Nat :=
  p.header.to_bytes ++ p.payload

/-- Reads exactly `k` bytes from the input, returning them and the rest. -/
def readBytes (k : Nat) (bs : List Nat) : Option (List Nat × List Nat) :=
  if k ≤ bs.length then some (bs.take k, bs.drop k) else none

/-- Decoding of a variant index, as bincode does for `PacketType`; an index
outside 0..4 is a deserialisation error. -/
def parsePacketType : Nat → Option PacketType
  | 0 => some .Audio
  | 1 => some .Silence
  | 2 => some .AudioStart
  | 3 => some .AudioStop
  | 4 => some .Sync
  | _ => none

/-- Deserialisation of a header, from `AudioHeader::from_bytes` /
`bincode::deserialize_from` in packet.rs: variant index, then each `Uuid` as
a u64 length (which the `Uuid` visitor requires to be 16) followed by that
many bytes, then the fixed-width integer fields and the 3 reserved bytes.
Returns the header and the unconsumed input. -/
def AudioHeader.from_bytes (bs : List Nat) : Option (AudioHeader × List Nat) := do
  let (tagB, r1) ← readBytes 4 bs
  let pt ← parsePacketType (leVal tagB)
  let (uLenB, r2) ← readBytes 8 r1
  let (uid, r3) ← readBytes (leVal uLenB) r2
  if uid.length = 16 then
    let (cLenB, r4) ← readBytes 8 r3
    let (cid, r5) ← readBytes (leVal cLenB) r4
    if cid.length = 16 then
      let (seqB, r6) ← readBytes 4 r5
      let (tsB, r7) ← readBytes 8 r6
      let (psB, r8) ← readBytes 2 r7
      let (srB, r9) ← readBytes 4 r8
      let (chB, r10) ← readBytes 1 r9
      let (resB, r11) ← readBytes 3 r10
      some (⟨pt, uid, cid, leVal seqB, leVal tsB, leVal psB, leVal srB,
             leVal chB, resB⟩, r11)
    else none
  else none

/-- Deserialisation of a packet, from `AudioPacket::from_bytes` in packet.rs:
reject inputs shorter than 10 bytes, parse the header, then slice the
declared `payload_size` bytes starting at the header's size; error when the
input is shorter than header plus declared payload. -/
def AudioPacket.from_bytes (bs : List Nat) : Option AudioPacket :=
  if bs.length < 10 then none
  else
    match AudioHeader.from_bytes bs with
    | none => none
    | some (h, rest) =>
      let header_size := bs.length - rest.length
      let payload_end := header_size + h.payload_size
      if bs.length < payload_end then none
      else some ⟨h, (bs.drop header_size).take h.payload_size⟩

/-- Whether the packet carries PCM audio, from `AudioPacket::has_audio`. -/
def AudioPacket.has_audio (p : AudioPacket) : Bool :=
  match p.header.packet_type with
  | .Audio => true
  | _ => false

/-- Whether the packet is a control event, from `AudioPacket::is_control`. -/
def AudioPacket.is_control (p : AudioPacket) : Bool :=
  match p.header.packet_type with
  | .AudioStart => true
  | .AudioStop => true
  | .Sync => true
  | _ => false

/-- Age of a packet at time `now`, from `AudioHeader::age_micros`:
`now.saturating_sub(timestamp)`, which is exactly Nat subtraction. -/
def ageMicros (now ts : Nat) : Nat :=
  now - ts

/-- Bounded FIFO packet store, from `CircularBuffer` in buffer.rs. -/
structure CircularBuffer where
  buffer : List AudioPacket
  capacity : Nat
  total_packets : Nat
  dropped_packets : Nat
deriving DecidableEq

/-- from `CircularBuffer::new`. -/
def CircularBuffer.new (capacity : Nat) : CircularBuffer :=
  ⟨[], capacity, 0, 0⟩

/-- from `CircularBuffer::push`: count the packet; when the buffer is at (or
above) capacity, pop the front (incrementing the drop counter even when the
buffer was empty, as the source ignores `pop_front`'s result); append. -/
def CircularBuffer.push (b : CircularBuffer) (p : AudioPacket) : CircularBuffer :=
  let b1 : CircularBuffer := { b with total_packets := b.total_packets + 1 }
  let b2 : CircularBuffer :=
    if b1.capacity ≤ b1.buffer.length then
      { b1 with buffer := b1.buffer.tail, dropped_packets := b1.dropped_packets + 1 }
    else b1
  { b2 with buffer := b2.buffer ++ [p] }

/-- Pushes a list of packets in order. -/
def CircularBuffer.pushAll (b : CircularBuffer) (ps : List AudioPacket) : CircularBuffer :=
  ps.foldl CircularBuffer.push b

/-- Drop-rate percentage from `CircularBuffer::stats` (an f64 in the source,
idealised as an exact rational). -/
def CircularBuffer.dropRate (b : CircularBuffer) : ℚ :=
  if 0 < b.total_packets then (b.dropped_packets : ℚ) / (b.total_packets : ℚ) * 100 else 0

/-- Jitter buffer, from `AudioBuffer` in buffer.rs: an audio sub-buffer, a
control sub-buffer at a quarter of the capacity, and a target latency. -/
structure AudioBuffer where
  audio_buffer : CircularBuffer
  control_buffer : CircularBuffer
  target_latency_us : Nat
deriving DecidableEq

/-- from `AudioBuffer::new(capacity, target_latency_ms)`. -/
def AudioBuffer.new (capacity target_latency_ms : Nat) : AudioBuffer :=
  ⟨CircularBuffer.new capacity, CircularBuffer.new (capacity / 4),
   target_latency_ms * 1000⟩

/-- from `AudioBuffer::push`: control packets go to the control sub-buffer,
everything else to the audio sub-buffer. -/
def AudioBuffer.push (st : AudioBuffer) (p : AudioPacket) : AudioBuffer :=
  if p.is_control then { st with control_buffer := st.control_buffer.push p }
  else { st with audio_buffer := st.audio_buffer.push p }

/-- Release condition of the plain drain path in `get_ready_packets`:
the packet's age has reached the target latency. -/
def readyPred (target now : Nat) (p : AudioPacket) : Bool :=
  target ≤ ageMicros now p.header.timestamp

/-- from `AudioBuffer::get_ready_packets`: drain all of the control
sub-buffer, then pop the audio sub-buffer front while it is ripe.  `now` is
the clock value the source reads inside `age_micros`. -/
def AudioBuffer.get_ready_packets (st : AudioBuffer) (now : Nat) :
    List AudioPacket × AudioBuffer :=
  let ready := st.audio_buffer.buffer.takeWhile (readyPred st.target_latency_us now)
  let rest := st.audio_buffer.buffer.dropWhile (readyPred st.target_latency_us now)
  (st.control_buffer.buffer ++ ready,
   { st with control_buffer := { st.control_buffer with buffer := [] },
             audio_buffer := { st.audio_buffer with buffer := rest } })

/-- Release condition of the synchronised path in
`get_synchronized_packets`: the packet's timestamp is within 50 ms of the
channel's latest processed timestamp, or the packet is past its latency
deadline. -/
def syncPred (sync : List (Uuid × Nat)) (target now : Nat) (p : AudioPacket) : Bool :=
  let channel_latest := (sync.lookup p.header.channel_id).getD 0
  decide (p.header.timestamp ≤ channel_latest + 50000) ||
    readyPred target now p

/-- from `AudioBuffer::get_synchronized_packets`. -/
def AudioBuffer.get_synchronized_packets (st : AudioBuffer)
    (channel_sync : List (Uuid × Nat)) (now : Nat) :
    List AudioPacket × AudioBuffer :=
  let c := syncPred channel_sync st.target_latency_us now
  (st.control_buffer.buffer ++ st.audio_buffer.buffer.takeWhile c,
   { st with control_buffer := { st.control_buffer with buffer := [] },
             audio_buffer := { st.audio_buffer with
                               buffer := st.audio_buffer.buffer.dropWhile c } })

/-- from `AudioBuffer::auto_adjust_latency`: grow the target by 10 % (capped
at 500 ms) when the drop rate exceeds 5 %; shrink it by 5 % (floored at
20 ms) when the drop rate is under 1 % and the buffer is less than half
full; otherwise leave it unchanged. -/
def AudioBuffer.auto_adjust_latency (st : AudioBuffer) : AudioBuffer :=
  let r := st.audio_buffer.dropRate
  if 5 < r then
    { st with target_latency_us := min (st.target_latency_us * 110 / 100) 500000 }
  else if r < 1 ∧ st.audio_buffer.buffer.length < st.audio_buffer.capacity / 2 then
    { st with target_latency_us := max (st.target_latency_us * 95 / 100) 20000 }
  else st

/-- The jitter buffer that `AudioRouter::add_user_to_channel` (router.rs)
creates for a new (user, channel) pair: `AudioBuffer::new(1024, 48000)`. -/
def routerUserBuffer : AudioBuffer :=
  AudioBuffer.new 1024 48000

open scoped Classical

/-- Per-user audio controls, from `UserAudioControls` in mixer.rs.  The f32
fields are idealised as exact reals. -/
structure UserAudioControls where
  volume : ℝ
  muted : Bool
  solo : Bool
  pan : ℝ
  high_pass_enabled : Bool
  noise_suppression : ℝ
  echo_cancellation : Bool
  voice_activity_threshold : ℝ

/-- from `impl Default for UserAudioControls`. -/
noncomputable def UserAudioControls.default : UserAudioControls :=
  ⟨1, false, false, 0, true, 0.3, true, 0.1⟩

/-- Per-channel mixing configuration, from `ChannelMixConfig` in mixer.rs. -/
structure ChannelMixConfig where
  master_volume : ℝ
  auto_gain_control : Bool
  compression_enabled : Bool
  compression_ratio : ℝ
  noise_gate_enabled : Bool
  noise_gate_threshold : ℝ
  max_concurrent_voices : Nat

/-- from `impl Default for ChannelMixConfig`. -/
noncomputable def ChannelMixConfig.default : ChannelMixConfig :=
  ⟨1, true, true, 4, true, -40, 8⟩

/-- Mixer state, from `AudioMixer` in mixer.rs.  The `stats` and
`level_history` tables are omitted: nothing in `mix_packets_advanced` reads
them, so they cannot influence the returned bytes or the `mix_buffer`. -/
structure AudioMixer where
  user_controls : List ((Uuid × Uuid) × UserAudioControls)
  channel_configs : List (Uuid × ChannelMixConfig)
  mix_buffer : List ℝ
  sample_rate : Nat
  channels : Nat

/-- from `AudioMixer::new`. -/
def AudioMixer.new (sample_rate channels : Nat) : AudioMixer :=
  ⟨[], [], [], sample_rate, channels⟩

/-- from `AudioMixer::get_user_controls`: stored controls or the default. -/
noncomputable def AudioMixer.get_user_controls (st : AudioMixer) (uid cid : Uuid) :
    UserAudioControls :=
  (st.user_controls.lookup (uid, cid)).getD UserAudioControls.default

/-- from `AudioMixer::get_channel_config`: stored config or the default. -/
noncomputable def AudioMixer.get_channel_config (st : AudioMixer) (cid : Uuid) :
    ChannelMixConfig :=
  (st.channel_configs.lookup cid).getD ChannelMixConfig.default

/-- First filtering loop of `mix_packets_advanced`: is there any contributor
(an `Audio` packet with non-empty payload) whose controls say `solo`? -/
noncomputable def AudioMixer.hasSoloActive (st : AudioMixer) (packets : List AudioPacket)
    (cid : Uuid) : Bool :=
  packets.any fun p =>
    p.has_audio && !p.payload.isEmpty && (st.get_user_controls p.header.user_id cid).solo

/-- Second filtering loop of `mix_packets_advanced`: skip non-audio and
empty packets, skip muted users, skip non-solo users when `hasSolo`, and
stop (the loop `break`s) once `max_concurrent_voices` packets are kept.
`k` is the running count of kept packets. -/
noncomputable def AudioMixer.selectActive (st : AudioMixer) (cid : Uuid)
    (maxVoices : Nat) (hasSolo : Bool) :
    List AudioPacket → Nat → List (AudioPacket × UserAudioControls)
  | [], _ => []
  | p :: ps, k =>
    if !p.has_audio || p.payload.isEmpty then
      st.selectActive cid maxVoices hasSolo ps k
    else if (st.get_user_controls p.header.user_id cid).muted then
      st.selectActive cid maxVoices hasSolo ps k
    else if hasSolo && !(st.get_user_controls p.header.user_id cid).solo then
      st.selectActive cid maxVoices hasSolo ps k
    else if maxVoices ≤ k then []
    else (p, st.get_user_controls p.header.user_id cid) ::
      st.selectActive cid maxVoices hasSolo ps (k + 1)

/-- The surviving contributors of `mix_packets_advanced`, paired with the
controls that were looked up for them. -/
noncomputable def AudioMixer.activePackets (st : AudioMixer) (packets : List AudioPacket)
    (cid : Uuid) : List (AudioPacket × UserAudioControls) :=
  st.selectActive cid (st.get_channel_config cid).max_concurrent_voices
    (st.hasSoloActive packets cid) packets 0

/-- Two's-complement value of a little-endian 16-bit sample. -/
def i16FromLE (b0 b1 : Nat) : Int :=
  if b0 % 256 + 256 * (b1 % 256) < 32768 then ((b0 % 256 + 256 * (b1 % 256) : Nat) : Int)
  else ((b0 % 256 + 256 * (b1 % 256) : Nat) : Int) - 65536

/-- from `AudioMixer::bytes_to_samples`: an odd byte count is an error,
otherwise each 2-byte chunk is a little-endian i16. -/
def bytesToSamples : List Nat → Option (List Int)
  | [] => some []
  | [_] => none
  | b0 :: b1 :: rest => (bytesToSamples rest).map (fun s => i16FromLE b0 b1 :: s)

/-- Little-endian bytes of an i16 value (`i16::to_le_bytes`). -/
def i16ToLE (z : Int) : List Nat :=
  u16LE (z % 65536).toNat

/-- Sign factor used by the source (`if *sample >= 0.0 { 1.0 } else { -1.0 }`;
`f32::signum` agrees with it on every value reachable there). -/
noncomputable def rsign (x : ℝ) : ℝ :=
  if 0 ≤ x then 1 else -1

/-- Rust `f32::clamp(lo, hi)` for `lo ≤ hi`. -/
noncomputable def rclamp (x lo hi : ℝ) : ℝ :=
  max lo (min x hi)

/-- Per-sample body of `AudioMixer::apply_audio_processing`: user volume and
master volume, then the noise gate (`20·log10(|s|/i16::MAX) <
threshold ⇒ 0`), then soft noise suppression below `0.1·i16::MAX`, then the
simplified high-pass halving below `0.05·i16::MAX`. -/
noncomputable def processSample (c : UserAudioControls) (cfg : ChannelMixConfig)
    (x : ℝ) : ℝ :=
  let s1 := x * c.volume * cfg.master_volume
  let s2 := if cfg.noise_gate_enabled then
      (if 20 * Real.logb 10 (|s1| / 32767) < cfg.noise_gate_threshold then 0 else s1)
    else s1
  let s3 := if 0 < c.noise_suppression then
      (if |s2| < 32767 * 0.1 then s2 * (1 - c.noise_suppression) else s2)
    else s2
  if c.high_pass_enabled then
    (if |s3| < 32767 * 0.05 then s3 * 0.5 else s3)
  else s3

/-- Accumulation loop of `apply_audio_processing`: add the processed samples
into the mix buffer pointwise, stopping at the end of the mix buffer and
leaving its tail unchanged when the voice is shorter. -/
noncomputable def addInto (f : ℝ → ℝ) : List ℝ → List Int → List ℝ
  | buf, [] => buf
  | [], _ => []
  | b :: bs, s :: ss => (b + f (s : ℝ)) :: addInto f bs ss

/-- The per-voice phase of `mix_packets_advanced`: each active packet whose
payload parses into samples is processed and accumulated; a packet whose
payload has odd length is skipped (`if let Ok(samples) = ...`). -/
noncomputable def accumVoices (cfg : ChannelMixConfig)
    (active : List (AudioPacket × UserAudioControls)) (buf : List ℝ) : List ℝ :=
  active.foldl
    (fun b pc =>
      (bytesToSamples pc.1.payload).elim b (addInto (processSample pc.2 cfg) b))
    buf

/-- Per-sample body of `AudioMixer::apply_global_processing`: compression of
the excess above `0.7·i16::MAX` by the configured ratio (sign-preserving),
then the limiter clipping magnitudes at or above `i16::MAX` to
`i16::MAX − 1`. -/
noncomputable def globalSample (cfg : ChannelMixConfig) (x : ℝ) : ℝ :=
  let y := if cfg.compression_enabled then
      (if 32767 * 0.7 < |x| then
        rsign x * (32767 * 0.7 + (|x| - 32767 * 0.7) / cfg.compression_ratio)
      else x)
    else x
  if 32767 ≤ |y| then rsign y * (32767 - 1) else y

/-- RMS level computed at the end of `apply_global_processing`:
`sqrt(rms_sum / len)` over the post-limiter mix buffer. -/
noncomputable def rmsLevel (buf : List ℝ) : ℝ :=
  Real.sqrt ((buf.map fun s => s * s).sum / (buf.length : ℝ))

/-- AGC step of `apply_global_processing`: when enabled and the RMS level is
positive, scale the whole buffer by `clamp(0.3·i16::MAX / rms, 0.1, 2.0)`. -/
noncomputable def applyAgc (cfg : ChannelMixConfig) (buf : List ℝ) : List ℝ :=
  if cfg.auto_gain_control then
    (if 0 < rmsLevel buf then
      buf.map (· * rclamp (32767 * 0.3 / rmsLevel buf) 0.1 2.0)
    else buf)
  else buf

/-- Clamp to `[i16::MIN, i16::MAX]` and truncate toward zero, the meaning of
`x.clamp(i16::MIN as f32, i16::MAX as f32) as i16`. -/
noncomputable def i16OfReal (x : ℝ) : Int :=
  let c := rclamp x (-32768) 32767
  if 0 ≤ c then ⌊c⌋ else ⌈c⌉

/-- from `AudioMixer::mix_buffer_to_bytes`, split at the sample level: the
first `sample_count` buffer entries are clamped to the i16 range and
truncated toward zero (`as i16`); indices past the buffer produce 0. -/
noncomputable def mixBufferToSamples (buf : List ℝ) (sample_count : Nat) : List Int :=
  (buf.take sample_count).map i16OfReal ++
    List.replicate (sample_count - buf.length) 0

/-- Byte serialisation of the produced samples (`to_le_bytes`, interleaved). -/
def samplesToBytes (ss : List Int) : List Nat :=
  (ss.map i16ToLE).flatten

/-- from `AudioMixer::mix_packets_advanced`.  Returns the produced bytes (or
`None`) and the successor mixer state.  The mix buffer is grown by
`Vec::resize` — which keeps the existing prefix — when it is smaller than
`sample_count * channels`, and zero-filled otherwise; the surviving
contributors are accumulated, global processing and AGC run, and the first
`sample_count` entries are emitted. -/
noncomputable def AudioMixer.mix_packets_advanced (st : AudioMixer)
    (packets : List AudioPacket) (cid : Uuid) : Option (List Nat) × AudioMixer :=
  if packets.isEmpty then (none, st)
  else
    let cfg := st.get_channel_config cid
    match st.activePackets packets cid with
    | [] => (none, st)
    | (p0, c0) :: rest =>
      let sample_count := p0.payload.length / 2
      if sample_count = 0 then (none, st)
      else
        let needed := sample_count * st.channels
        let buf0 := if st.mix_buffer.length < needed
          then st.mix_buffer ++ List.replicate (needed - st.mix_buffer.length) (0 : ℝ)
          else List.replicate st.mix_buffer.length (0 : ℝ)
        let buf1 := accumVoices cfg ((p0, c0) :: rest) buf0
        let buf2 := buf1.map (globalSample cfg)
        let buf3 := applyAgc cfg buf2
        (some (samplesToBytes (mixBufferToSamples buf3 sample_count)),
         { st with mix_buffer := buf3 })

/-! Concrete fixtures for the counterexamples and witnesses below. -/

/-- Sixteen zero bytes, a concrete `Uuid`. -/
def zeroUuid : Uuid :=
  List.replicate 16 0

/-- Sixteen one bytes, a second concrete `Uuid`. -/
def oneUuid : Uuid :=
  List.replicate 16 1

/-- Sixteen two bytes, a third concrete `Uuid`. -/
def twoUuid : Uuid :=
  List.replicate 16 2

/-- An `Audio` packet literal with the given ids, sequence, timestamp and
payload (48 kHz mono, well-formed payload size). -/
def mkAudio (uid cid : Uuid) (seq ts : Nat) (payload : List Nat) : AudioPacket :=
  ⟨⟨.Audio, uid, cid, seq, ts, payload.length, 48000, 1, [0, 0, 0]⟩, payload⟩

/-- A concrete `Silence` packet with empty payload. -/
def cSilencePacket : AudioPacket :=
  ⟨⟨.Silence, zeroUuid, zeroUuid, 0, 0, 0, 48000, 1, [0, 0, 0]⟩, []⟩

/-- A concrete `Audio` packet with a 4-byte payload. -/
def cAudioPacket : AudioPacket :=
  mkAudio zeroUuid oneUuid 7 123456 [1, 2, 3, 4]

/-- A packet whose age at time 1000000 is zero. -/
def pEarly : AudioPacket :=
  mkAudio zeroUuid oneUuid 0 1000000 [0, 0]

/-- A packet with timestamp zero, ripe at any later clock. -/
def pRipe : AudioPacket :=
  mkAudio zeroUuid oneUuid 0 0 [0, 0]

/-- A jitter buffer holding `pEarly`, target latency 50 ms. -/
def bufSyncCex : AudioBuffer :=
  ⟨⟨[pEarly], 16, 1, 0⟩, CircularBuffer.new 4, 50000⟩

/-- Channel-sync table whose latest timestamp equals `pEarly`'s. -/
def syncMapCex : List (Uuid × Nat) :=
  [(oneUuid, 1000000)]

/-- A jitter buffer holding `pRipe`, target latency 50 ms. -/
def bufReadyWit : AudioBuffer :=
  ⟨⟨[pRipe], 16, 1, 0⟩, CircularBuffer.new 4, 50000⟩

/-- Controls equal to the default except `solo = true`. -/
noncomputable def ctrlSolo : UserAudioControls :=
  ⟨1, false, true, 0, true, 0.3, true, 0.1⟩

/-- Controls with volume 1 and all per-voice shaping off: not muted, not
solo, no noise suppression, high-pass disabled. -/
noncomputable def ctrlClean : UserAudioControls :=
  ⟨1, false, false, 0, false, 0, false, 0.1⟩

/-- Channel config equal to the default except AGC disabled. -/
noncomputable def cfgAgcOff : ChannelMixConfig :=
  ⟨1, false, true, 4, true, -40, 8⟩

/-- Channel config with AGC enabled and compression disabled. -/
noncomputable def cfgAgcOnCompOff : ChannelMixConfig :=
  ⟨1, true, false, 4, true, -40, 8⟩

/-- Channel config with AGC, compression and the noise gate all disabled. -/
noncomputable def cfgPlain : ChannelMixConfig :=
  ⟨1, false, false, 4, false, -40, 8⟩

/-- A payload of `n` copies of the little-endian sample `[b0, b1]`. -/
def constPayload (b0 b1 n : Nat) : List Nat :=
  (List.replicate n [b0, b1]).flatten

/-- Mixer knowing one solo user `(zeroUuid, twoUuid)`. -/
noncomputable def stSolo : AudioMixer :=
  ⟨[((zeroUuid, twoUuid), ctrlSolo)], [], [], 48000, 1⟩

/-- Audio packet of the solo user. -/
def pSoloA : AudioPacket :=
  mkAudio zeroUuid twoUuid 0 0 [0, 0]

/-- Audio packet of a second, non-solo user. -/
def pSoloB : AudioPacket :=
  mkAudio oneUuid twoUuid 0 0 [0, 0]

/-- A fresh mixer with no stored controls or configs (48 kHz mono). -/
def stDefaultMixer : AudioMixer :=
  AudioMixer.new 48000 1

/-- A two-sample packet (first contributor of the truncation check). -/
def pLong : AudioPacket :=
  mkAudio zeroUuid twoUuid 0 0 [0, 0, 0, 0]

/-- A one-sample packet (second, shorter contributor). -/
def pShort : AudioPacket :=
  mkAudio oneUuid twoUuid 0 0 [0, 0]

/-- Mixer for the two-voice sum scenario: both users have `ctrlClean`,
the channel has AGC disabled. -/
noncomputable def mixerS2 (uA uB cid : Uuid) : AudioMixer :=
  ⟨[((uA, cid), ctrlClean), ((uB, cid), ctrlClean)], [(cid, cfgAgcOff)], [], 48000, 1⟩

/-- An `n`-sample packet whose samples are all the i16 value 1000, with
arbitrary sequence, timestamp, sample rate and channel count. -/
def pTone1000 (uid cid : Uuid) (sq ts sr ch n : Nat) : AudioPacket :=
  ⟨⟨.Audio, uid, cid, sq, ts, 2 * n, sr, ch, [0, 0, 0]⟩, constPayload 232 3 n⟩

/-- An `n`-sample packet whose samples are all the i16 value 2000, with
arbitrary sequence, timestamp, sample rate and channel count. -/
def pTone2000 (uid cid : Uuid) (sq ts sr ch n : Nat) : AudioPacket :=
  ⟨⟨.Audio, uid, cid, sq, ts, 2 * n, sr, ch, [0, 0, 0]⟩, constPayload 208 7 n⟩

/-- Mixer with default user controls and AGC disabled on `twoUuid`. -/
noncomputable def stS2Cex : AudioMixer :=
  ⟨[], [(twoUuid, cfgAgcOff)], [], 48000, 1⟩

/-- Mixer with default user controls, AGC on and compression off. -/
noncomputable def stClip : AudioMixer :=
  ⟨[], [(twoUuid, cfgAgcOnCompOff)], [], 48000, 1⟩

/-- A 49-sample packet: one i16 sample of -32768 followed by 48 zeros. -/
def pClip : AudioPacket :=
  mkAudio zeroUuid twoUuid 0 0 ([0, 128] ++ constPayload 0 0 48)

/-- A single-sample all-zero packet. -/
def pZeroOne : AudioPacket :=
  mkAudio zeroUuid twoUuid 0 0 [0, 0]

/-- Mixer with every processing stage disabled on `twoUuid`. -/
noncomputable def stLeakBase : AudioMixer :=
  ⟨[], [(twoUuid, cfgPlain)], [], 48000, 1⟩

/-- A single-sample packet with value 10000. -/
def pTen : AudioPacket :=
  mkAudio zeroUuid twoUuid 0 0 [16, 39]

/-- A two-sample all-zero packet. -/
def pZeroTwo : AudioPacket :=
  mkAudio zeroUuid twoUuid 0 0 [0, 0, 0, 0]

/-- The mixer state left behind by mixing `pTen` on `stLeakBase`. -/
noncomputable def stLeakAfter : AudioMixer :=
  (stLeakBase.mix_packets_advanced [pTen] twoUuid).2

/-- The same state written out: identical tables, stale `mix_buffer`. -/
noncomputable def stLeakStale : AudioMixer :=
  ⟨[], [(twoUuid, cfgPlain)], [(10000 : ℝ)], 48000, 1⟩

/-! Helper lemmas about the byte-level encoders and the parser. -/

theorem u16LE_length (n : Nat) : (u16LE n).length = 2 := rfl

theorem u32LE_length (n : Nat) : (u32LE n).length = 4 := rfl

theorem u64LE_length (n : Nat) : (u64LE n).length = 8 := rfl

theorem readBytes_append (k : Nat) (xs ys : List Nat) (h : xs.length = k) :
    readBytes k (xs ++ ys) = some (xs, ys) := by
  subst h
  simp [readBytes, List.take_left, List.drop_left]

theorem leVal_u16LE (n : Nat) (h : n < 2 ^ 16) : leVal (u16LE n) = n := by
  simp [leVal, u16LE]
  omega

theorem leVal_u32LE (n : Nat) (h : n < 2 ^ 32) : leVal (u32LE n) = n := by
  simp [leVal, u32LE]
  omega

theorem leVal_u64LE (n : Nat) (h : n < 2 ^ 64) : leVal (u64LE n) = n := by
  simp [leVal, u64LE]
  omega

theorem leVal_u64LE_16 : leVal (u64LE 16) = 16 := by decide

theorem parse_variantIndex (pt : PacketType) :
    parsePacketType (leVal (u32LE pt.variantIndex)) = some pt := by
  cases pt <;> rfl

theorem header_to_bytes_length (h : AudioHeader) (hWF : h.WF) :
    h.to_bytes.length = 74 := by
  obtain ⟨hu, hc, hr, -, -, -, -, -⟩ := hWF
  simp [AudioHeader.to_bytes, u32LE, u64LE, u16LE, hu, hc, hr]

set_option maxHeartbeats 1000000 in
theorem header_from_to (h : AudioHeader) (hWF : h.WF) (tail : List Nat) :
    AudioHeader.from_bytes (h.to_bytes ++ tail) = some (h, tail) := by
  obtain ⟨hu, hc, hr, hseq, hts, hps, hsr, hch⟩ := hWF
  unfold AudioHeader.to_bytes AudioHeader.from_bytes
  rw [hu, hc]
  simp only [List.append_assoc]
  rw [readBytes_append 4 (u32LE _) _ (u32LE_length _)]
  simp only [Option.bind_eq_bind, Option.some_bind]
  rw [parse_variantIndex]
  simp only [Option.some_bind]
  rw [readBytes_append 8 (u64LE _) _ (u64LE_length _)]
  simp only [Option.some_bind]
  rw [leVal_u64LE_16, readBytes_append 16 h.user_id _ hu]
  simp only [Option.some_bind]
  rw [if_pos hu]
  rw [readBytes_append 8 (u64LE _) _ (u64LE_length _)]
  simp only [Option.some_bind]
  rw [leVal_u64LE_16, readBytes_append 16 h.channel_id _ hc]
  simp only [Option.some_bind]
  rw [if_pos hc]
  rw [readBytes_append 4 (u32LE _) _ (u32LE_length _)]
  simp only [Option.some_bind]
  rw [readBytes_append 8 (u64LE _) _ (u64LE_length _)]
  simp only [Option.some_bind]
  rw [readBytes_append 2 (u16LE _) _ (u16LE_length _)]
  simp only [Option.some_bind]
  rw [readBytes_append 4 (u32LE _) _ (u32LE_length _)]
  simp only [Option.some_bind]
  rw [readBytes_append 1 [h.channels % 256] _ rfl]
  simp only [Option.some_bind]
  rw [readBytes_append 3 h.reserved _ hr]
  simp only [Option.some_bind]
  rw [leVal_u32LE _ hseq, leVal_u64LE _ hts, leVal_u16LE _ hps, leVal_u32LE _ hsr]
  have hchv : leVal [h.channels % 256] = h.channels := by
    simp [leVal]
    omega
  rw [hchv]

/-- C1 (amended): the encoder emits a fixed 74-byte header — bincode's
layout: 4-byte little-endian type tag, each UUID as an 8-byte little-endian
length (16) followed by its 16 bytes, then sequence, timestamp,
payload_size, sample_rate little-endian, channels, and 3 reserved bytes —
followed by the payload, so `len(encode(p)) = 74 + p.payload_size` for
well-formed packets. -/
theorem packet_encoding_fixed_overhead (p : AudioPacket) (hWF : p.WF) :
    p.to_bytes.length = 74 + p.header.payload_size := by
  obtain ⟨hWFh, hpl⟩ := hWF
  simp [AudioPacket.to_bytes, header_to_bytes_length p.header hWFh, hpl]

/-- Witness: `packet_encoding_fixed_overhead` applied to a concrete packet. -/
theorem packet_encoding_fixed_overhead_witness :
    cAudioPacket.WF ∧ cAudioPacket.to_bytes.length = 74 + cAudioPacket.header.payload_size :=
  ⟨by decide, packet_encoding_fixed_overhead cAudioPacket (by decide)⟩

/-- C1 (counterexample): on a concrete empty-payload packet the encoding is
74 bytes, not the 55 bytes the specification's §6 table prescribes. -/
theorem packet_encoding_not_55_bytes :
    cSilencePacket.to_bytes.length = 74 ∧
    cSilencePacket.to_bytes.length ≠ 55 + cSilencePacket.header.payload_size := by
  decide

/-- C2: decoding inverts encoding on every well-formed packet. -/
theorem codec_roundtrip (p : AudioPacket) (hWF : p.WF) :
    AudioPacket.from_bytes p.to_bytes = some p := by
  obtain ⟨hWFh, hpl⟩ := hWF
  have hhb : p.header.to_bytes.length = 74 := header_to_bytes_length p.header hWFh
  unfold AudioPacket.from_bytes AudioPacket.to_bytes
  rw [if_neg (by simp only [List.length_append, hhb]; omega)]
  rw [header_from_to p.header hWFh p.payload]
  simp only [List.length_append, hhb, hpl]
  rw [if_neg (by omega)]
  have h74 : 74 + p.payload.length - p.payload.length = 74 := by omega
  rw [h74]
  have hdrop : (p.header.to_bytes ++ p.payload).drop 74 = p.payload := by
    rw [← hhb, List.drop_left]
  rw [hdrop, List.take_length]

/-- Witness: `codec_roundtrip` applied to a concrete audio packet. -/
theorem codec_roundtrip_witness :
    cAudioPacket.WF ∧ AudioPacket.from_bytes cAudioPacket.to_bytes = some cAudioPacket :=
  ⟨by decide, codec_roundtrip cAudioPacket (by decide)⟩

/-! Circular buffer and jitter buffer properties. -/

theorem pushAll_nil (b : CircularBuffer) : b.pushAll [] = b := rfl

theorem pushAll_cons (b : CircularBuffer) (q : AudioPacket) (qs : List AudioPacket) :
    b.pushAll (q :: qs) = (b.push q).pushAll qs := rfl

theorem push_not_full (b : CircularBuffer) (q : AudioPacket)
    (h : b.buffer.length < b.capacity) :
    b.push q = ⟨b.buffer ++ [q], b.capacity, b.total_packets + 1, b.dropped_packets⟩ := by
  simp [CircularBuffer.push, Nat.not_le.mpr h]

theorem push_full (b : CircularBuffer) (q : AudioPacket)
    (h : b.capacity ≤ b.buffer.length) :
    b.push q = ⟨b.buffer.tail ++ [q], b.capacity, b.total_packets + 1,
                b.dropped_packets + 1⟩ := by
  simp [CircularBuffer.push, h]

theorem pushAll_overflow (cap : Nat) (hcap : 1 ≤ cap) (ps : List AudioPacket)
    (b : CircularBuffer) (hc : b.capacity = cap) (hlen : b.buffer.length ≤ cap) :
    (b.pushAll ps).buffer = (b.buffer ++ ps).drop (b.buffer.length + ps.length - cap) ∧
    (b.pushAll ps).dropped_packets =
      b.dropped_packets + (b.buffer.length + ps.length - cap) ∧
    (b.pushAll ps).buffer.length ≤ cap := by
  induction ps generalizing b with
  | nil =>
    refine ⟨?_, ?_, hlen⟩ <;>
      simp [pushAll_nil, Nat.sub_eq_zero_of_le hlen]
  | cons q qs ih =>
    rw [pushAll_cons]
    by_cases hfull : cap ≤ b.buffer.length
    · have heq : b.buffer.length = cap := le_antisymm hlen hfull
      obtain ⟨hd, tl, hbt⟩ : ∃ hd tl, b.buffer = hd :: tl := by
        cases hb : b.buffer with
        | nil => rw [hb] at heq; simp at heq; omega
        | cons x xs => exact ⟨x, xs, rfl⟩
      have htl : tl.length + 1 = cap := by
        rw [hbt] at heq; simpa using heq
      rw [push_full b q (by omega)]
      have ih' := ih ⟨b.buffer.tail ++ [q], b.capacity, b.total_packets + 1,
        b.dropped_packets + 1⟩ hc (by simp [hbt]; omega)
      dsimp only at ih'
      obtain ⟨ih1, ih2, ih3⟩ := ih'
      refine ⟨?_, ?_, ih3⟩
      · rw [ih1, hbt]
        dsimp only [List.tail_cons]
        have l1 : (tl ++ [q]).length + qs.length - cap = qs.length := by
          simp; omega
        have l2 : (hd :: tl).length + (q :: qs).length - cap = qs.length + 1 := by
          simp; omega
        rw [l1, l2, List.append_assoc, List.singleton_append, List.cons_append,
          List.drop_succ_cons]
      · rw [ih2, hbt]
        dsimp only [List.tail_cons]
        simp only [List.length_append, List.length_cons, List.length_nil]
        omega
    · have hlt : b.buffer.length < cap := Nat.lt_of_not_le hfull
      rw [push_not_full b q (by omega)]
      have ih' := ih ⟨b.buffer ++ [q], b.capacity, b.total_packets + 1,
        b.dropped_packets⟩ hc (by simp; omega)
      dsimp only at ih'
      obtain ⟨ih1, ih2, ih3⟩ := ih'
      refine ⟨?_, ?_, ih3⟩
      · rw [ih1, List.append_assoc, List.singleton_append]
        congr 1
        simp only [List.length_append, List.length_cons, List.length_nil]
        omega
      · rw [ih2]
        simp only [List.length_append, List.length_cons, List.length_nil]
        omega

/-- C8 (amended): for every capacity ≥ 1, pushing N > capacity packets into
a fresh circular buffer leaves exactly the last `capacity` packets in push
order, counts `N − capacity` drops, and the length never exceeds the
capacity after any prefix of the pushes. -/
theorem circular_fifo_overflow (cap : Nat) (ps : List AudioPacket)
    (hcap : 1 ≤ cap) (hN : cap < ps.length) :
    ((CircularBuffer.new cap).pushAll ps).buffer = ps.drop (ps.length - cap) ∧
    ((CircularBuffer.new cap).pushAll ps).dropped_packets = ps.length - cap ∧
    ∀ n : Nat, ((CircularBuffer.new cap).pushAll (ps.take n)).buffer.length ≤ cap := by
  have base := pushAll_overflow cap hcap ps (CircularBuffer.new cap) rfl
    (by simp [CircularBuffer.new])
  refine ⟨?_, ?_, fun n => (pushAll_overflow cap hcap (ps.take n)
    (CircularBuffer.new cap) rfl (by simp [CircularBuffer.new])).2.2⟩
  · simpa [CircularBuffer.new] using base.1
  · simpa [CircularBuffer.new] using base.2.1

/-- Witness: `circular_fifo_overflow` on three pushes into capacity 2. -/
theorem circular_fifo_overflow_witness :
    ((CircularBuffer.new 2).pushAll [pRipe, pEarly, cAudioPacket]).buffer =
      [pEarly, cAudioPacket] ∧
    ((CircularBuffer.new 2).pushAll [pRipe, pEarly, cAudioPacket]).dropped_packets = 1 := by
  have h := circular_fifo_overflow 2 [pRipe, pEarly, cAudioPacket] (by decide) (by decide)
  exact ⟨h.1.trans (by decide), h.2.1.trans (by decide)⟩

/-- C8 (counterexample): with capacity 0 a push still stores the packet, so
the resident packets are not the last `capacity = 0` pushed and `len ≤
capacity` fails. -/
theorem circular_capacity_zero_cex :
    ((CircularBuffer.new 0).push cAudioPacket).buffer = [cAudioPacket] ∧
    ¬ ((CircularBuffer.new 0).push cAudioPacket).buffer.length ≤
        (CircularBuffer.new 0).capacity := by
  decide

/-- C9: the jitter buffer created by `AudioRouter::add_user_to_channel`
passes 48000 as `target_latency_ms`, so its target latency is 48 s — far
outside the claimed [20 ms, 500 ms] range. -/
theorem router_buffer_latency_out_of_range :
    routerUserBuffer.target_latency_us = 48000000 ∧
    ¬ routerUserBuffer.target_latency_us ≤ 500000 := by
  decide

/-- C4 (amended): on the plain drain path a non-control packet is released
only once its age reaches the target latency; on the synchronised path it
is released only when its timestamp is within 50 ms of the channel's latest
timestamp or its age reaches the target latency (so the latency bound does
not cover that path).  Both parts assume the control sub-buffer holds only
control packets, which `AudioBuffer::push` guarantees. -/
theorem jitter_release_policy :
    (∀ (st : AudioBuffer) (now : Nat) (p : AudioPacket),
        (∀ q ∈ st.control_buffer.buffer, q.is_control = true) →
        p ∈ (st.get_ready_packets now).1 → p.is_control = false →
        st.target_latency_us ≤ ageMicros now p.header.timestamp) ∧
    (∀ (st : AudioBuffer) (sync : List (Uuid × Nat)) (now : Nat) (p : AudioPacket),
        (∀ q ∈ st.control_buffer.buffer, q.is_control = true) →
        p ∈ (st.get_synchronized_packets sync now).1 → p.is_control = false →
        (p.header.timestamp ≤ (sync.lookup p.header.channel_id).getD 0 + 50000 ∨
         st.target_latency_us ≤ ageMicros now p.header.timestamp)) := by
  constructor
  · intro st now p hctrl hmem hpc
    simp only [AudioBuffer.get_ready_packets] at hmem
    rcases List.mem_append.mp hmem with hmem | hmem
    · exact absurd (hctrl p hmem) (by simp [hpc])
    · have := List.mem_takeWhile_imp hmem
      simpa [readyPred] using this
  · intro st sync now p hctrl hmem hpc
    simp only [AudioBuffer.get_synchronized_packets] at hmem
    rcases List.mem_append.mp hmem with hmem | hmem
    · exact absurd (hctrl p hmem) (by simp [hpc])
    · have := List.mem_takeWhile_imp hmem
      simpa [syncPred, readyPred, Bool.or_eq_true, decide_eq_true_eq] using this

/-- Witness: `jitter_release_policy` on a ripe packet. -/
theorem jitter_release_policy_witness :
    pRipe ∈ (bufReadyWit.get_ready_packets 60000).1 ∧
    bufReadyWit.target_latency_us ≤ ageMicros 60000 pRipe.header.timestamp :=
  ⟨by decide,
   jitter_release_policy.1 bufReadyWit 60000 pRipe (by decide) (by decide) (by decide)⟩

/-- C4 (counterexample): the synchronised path releases a packet whose age
(0) is below the 50 ms target because its timestamp matches the channel's
latest timestamp. -/
theorem jitter_sync_early_release_cex :
    pEarly ∈ (bufSyncCex.get_synchronized_packets syncMapCex 1000000).1 ∧
    pEarly.is_control = false ∧
    ageMicros 1000000 pEarly.header.timestamp < bufSyncCex.target_latency_us := by
  decide

/-! Mixer filtering properties. -/

theorem selectActive_mem (st : AudioMixer) (cid : Uuid) (maxVoices : Nat)
    (hasSolo : Bool) (ps : List AudioPacket) (k : Nat) (p : AudioPacket)
    (c : UserAudioControls)
    (hmem : (p, c) ∈ st.selectActive cid maxVoices hasSolo ps k) :
    c = st.get_user_controls p.header.user_id cid ∧ c.muted = false ∧
    (hasSolo = true → c.solo = true) := by
  induction ps generalizing k with
  | nil => simp [AudioMixer.selectActive] at hmem
  | cons q qs ih =>
    rw [AudioMixer.selectActive] at hmem
    split_ifs at hmem with h1 h2 h3 h4
    · exact ih k hmem
    · exact ih k hmem
    · exact ih k hmem
    · simp at hmem
    · rcases List.mem_cons.mp hmem with heq | hmem
      · obtain ⟨hp, hcc⟩ := Prod.mk.injEq .. ▸ heq
        subst hp
        refine ⟨hcc, ?_, ?_⟩
        · rw [hcc]
          exact Bool.not_eq_true _ ▸ h2
        · intro hs
          rw [hcc]
          rw [hs] at h3
          simpa using h3
      · exact ih (k + 1) hmem

/-- C5: every contributor surviving the mixer's filtering is not muted, and
when any contributing user is in solo mode only solo contributors survive;
a muted user is excluded even when solo (the mute check runs first). -/
theorem mix_mute_solo_precedence (st : AudioMixer) (packets : List AudioPacket)
    (cid : Uuid) (p : AudioPacket) (c : UserAudioControls)
    (hmem : (p, c) ∈ st.activePackets packets cid) :
    c = st.get_user_controls p.header.user_id cid ∧ c.muted = false ∧
    (st.hasSoloActive packets cid = true → c.solo = true) :=
  selectActive_mem st cid _ _ packets 0 p c hmem

theorem stSolo_controls_A :
    stSolo.get_user_controls zeroUuid twoUuid = ctrlSolo := by
  simp [AudioMixer.get_user_controls, stSolo, List.lookup]

theorem stSolo_controls_B :
    stSolo.get_user_controls oneUuid twoUuid = UserAudioControls.default := by
  have hne : ((oneUuid, twoUuid) == (zeroUuid, twoUuid)) = false := by decide
  simp [AudioMixer.get_user_controls, stSolo, List.lookup, hne]

theorem stSolo_hasSolo :
    stSolo.hasSoloActive [pSoloA, pSoloB] twoUuid = true := by
  unfold AudioMixer.hasSoloActive
  simp only [List.any_cons, List.any_nil, pSoloA, pSoloB, mkAudio]
  rw [stSolo_controls_A]
  simp [AudioPacket.has_audio, ctrlSolo]

theorem stSolo_active :
    stSolo.activePackets [pSoloA, pSoloB] twoUuid = [(pSoloA, ctrlSolo)] := by
  have hcfg : stSolo.get_channel_config twoUuid = ChannelMixConfig.default := by
    simp [AudioMixer.get_channel_config, stSolo, List.lookup]
  unfold AudioMixer.activePackets
  rw [stSolo_hasSolo, hcfg]
  rw [AudioMixer.selectActive]
  simp only [pSoloA, pSoloB, mkAudio]
  rw [stSolo_controls_A]
  simp only [AudioPacket.has_audio, ctrlSolo, UserAudioControls.default,
    ChannelMixConfig.default]
  simp [AudioMixer.selectActive, stSolo_controls_B, UserAudioControls.default,
    pSoloA, pSoloB, mkAudio, AudioPacket.has_audio, ctrlSolo]

/-- Witness: `mix_mute_solo_precedence` on a concrete solo scenario. -/
theorem mix_mute_solo_precedence_witness :
    (pSoloA, ctrlSolo) ∈ stSolo.activePackets [pSoloA, pSoloB] twoUuid ∧
    ctrlSolo.muted = false ∧ ctrlSolo.solo = true := by
  have hmem : (pSoloA, ctrlSolo) ∈ stSolo.activePackets [pSoloA, pSoloB] twoUuid := by
    rw [stSolo_active]
    exact List.mem_singleton.mpr rfl
  have h := mix_mute_solo_precedence stSolo [pSoloA, pSoloB] twoUuid pSoloA ctrlSolo hmem
  exact ⟨hmem, h.2.1, h.2.2 stSolo_hasSolo⟩

/-! Mixer output length. -/

theorem samplesToBytes_length (ss : List Int) :
    (samplesToBytes ss).length = 2 * ss.length := by
  induction ss with
  | nil => rfl
  | cons a l ih =>
    have h2 : (i16ToLE a).length = 2 := rfl
    simp only [samplesToBytes, List.map_cons, List.flatten_cons,
      List.length_append, List.length_cons, h2] at *
    omega

theorem mixBufferToSamples_length (buf : List ℝ) (n : Nat) :
    (mixBufferToSamples buf n).length = n := by
  simp [mixBufferToSamples]
  omega

theorem mix_output_length_of_active (st : AudioMixer) (packets : List AudioPacket)
    (cid : Uuid) (p0 : AudioPacket) (c0 : UserAudioControls)
    (rest : List (AudioPacket × UserAudioControls))
    (hact : st.activePackets packets cid = (p0, c0) :: rest)
    (hsc : p0.payload.length / 2 ≠ 0) :
    ((st.mix_packets_advanced packets cid).1).map List.length =
      some (2 * (p0.payload.length / 2)) := by
  have hne : packets ≠ [] := by
    intro h
    rw [h] at hact
    simp [AudioMixer.activePackets, AudioMixer.selectActive] at hact
  unfold AudioMixer.mix_packets_advanced
  rw [if_neg (by simpa using hne)]
  simp only [hact]
  rw [if_neg hsc]
  simp [samplesToBytes_length, mixBufferToSamples_length]

/-- C6 (amended): the mix output length is fixed by the FIRST surviving
contributor: the output is `2 * (first.payload.length / 2)` bytes — one
16-bit sample per sample of the first contributor — and other contributors
only ever influence those samples (longer ones are cut, shorter ones leave
the remainder to the other voices), rather than the shortest contributor
setting the length. -/
theorem mix_length_first_contributor (st : AudioMixer) (packets : List AudioPacket)
    (cid : Uuid) (p0 : AudioPacket) (c0 : UserAudioControls)
    (rest : List (AudioPacket × UserAudioControls))
    (hact : st.activePackets packets cid = (p0, c0) :: rest)
    (hsc : p0.payload.length / 2 ≠ 0) :
    ((st.mix_packets_advanced packets cid).1).map List.length =
      some (2 * (p0.payload.length / 2)) :=
  mix_output_length_of_active st packets cid p0 c0 rest hact hsc

theorem stDefault_active_two :
    stDefaultMixer.activePackets [pLong, pShort] twoUuid =
      [(pLong, UserAudioControls.default), (pShort, UserAudioControls.default)] := by
  simp [AudioMixer.activePackets, AudioMixer.selectActive, AudioMixer.hasSoloActive,
    AudioMixer.get_user_controls, AudioMixer.get_channel_config, stDefaultMixer,
    AudioMixer.new, List.lookup, pLong, pShort, mkAudio, AudioPacket.has_audio,
    UserAudioControls.default, ChannelMixConfig.default]

/-- Witness: `mix_length_first_contributor` on a single 2-sample packet. -/
theorem mix_length_first_contributor_witness :
    ((stDefaultMixer.mix_packets_advanced [pLong] twoUuid).1).map List.length =
      some (2 * (pLong.payload.length / 2)) := by
  have hact : stDefaultMixer.activePackets [pLong] twoUuid =
      [(pLong, UserAudioControls.default)] := by
    simp [AudioMixer.activePackets, AudioMixer.selectActive, AudioMixer.hasSoloActive,
      AudioMixer.get_user_controls, AudioMixer.get_channel_config, stDefaultMixer,
      AudioMixer.new, List.lookup, pLong, mkAudio, AudioPacket.has_audio,
      UserAudioControls.default, ChannelMixConfig.default]
  exact mix_length_first_contributor stDefaultMixer [pLong] twoUuid pLong
    UserAudioControls.default [] hact (by decide)

/-- C6 (counterexample): with a 2-sample first contributor and a 1-sample
second contributor the output is 4 bytes, not `2 * 1` as the
shortest-contributor rule would require. -/
theorem mix_truncation_shortest_cex :
    ((stDefaultMixer.mix_packets_advanced [pLong, pShort] twoUuid).1).map List.length =
      some 4 ∧
    min (pLong.payload.length / 2) (pShort.payload.length / 2) = 1 ∧
    (4 : Nat) ≠ 2 * 1 := by
  refine ⟨?_, by decide, by decide⟩
  have h := mix_output_length_of_active stDefaultMixer [pLong, pShort] twoUuid pLong
    UserAudioControls.default [(pShort, UserAudioControls.default)]
    stDefault_active_two (by decide)
  simpa using h

/-! Helper lemmas for the real-valued mixer pipeline. -/

theorem gate_not_fire (x : ℝ) (hx : 0 < x) (hge : 1 / 100 ≤ x) :
    ¬ (20 * Real.logb 10 x < -40) := by
  intro h
  have h2 : Real.logb 10 x < -2 := by linarith
  rw [Real.logb_lt_iff_lt_rpow (by norm_num) hx] at h2
  rw [show ((-2 : ℝ)) = ((-2 : ℤ) : ℝ) by norm_num, Real.rpow_intCast] at h2
  norm_num at h2
  linarith

theorem processSample_zero (c : UserAudioControls) (cfg : ChannelMixConfig) :
    processSample c cfg 0 = 0 := by
  unfold processSample
  simp only [zero_mul, abs_zero]
  split_ifs <;> simp

theorem i16OfReal_intCast (z : Int) (h1 : -32768 ≤ z) (h2 : z ≤ 32767) :
    i16OfReal ((z : ℤ) : ℝ) = z := by
  unfold i16OfReal rclamp
  have hz2 : ((z : ℤ) : ℝ) ≤ 32767 := by exact_mod_cast h2
  have hz1 : (-32768 : ℝ) ≤ ((z : ℤ) : ℝ) := by exact_mod_cast h1
  rw [min_eq_left hz2, max_eq_right hz1]
  by_cases h0 : (0 : ℝ) ≤ ((z : ℤ) : ℝ)
  · rw [if_pos h0, Int.floor_intCast]
  · rw [if_neg h0, Int.ceil_intCast]

theorem i16FromLE_round (a : Int) (h1 : -32768 ≤ a) (h2 : a ≤ 32767) :
    i16FromLE ((a % 65536).toNat % 256) ((a % 65536).toNat / 256 % 256) = a := by
  unfold i16FromLE
  split_ifs with h <;> omega

theorem bytesToSamples_samplesToBytes (ss : List Int)
    (h : ∀ s ∈ ss, -32768 ≤ s ∧ s ≤ 32767) :
    bytesToSamples (samplesToBytes ss) = some ss := by
  induction ss with
  | nil => rfl
  | cons a l ih =>
    have ha := h a (List.mem_cons_self a l)
    have ih' := ih fun s hs => h s (List.mem_cons_of_mem a hs)
    simp only [samplesToBytes] at ih' ⊢
    simp only [List.map_cons, List.flatten_cons]
    rw [show i16ToLE a =
      [(a % 65536).toNat % 256, (a % 65536).toNat / 256 % 256] from rfl]
    simp [bytesToSamples, ih', i16FromLE_round a ha.1 ha.2]

theorem bytesToSamples_constPayload (b0 b1 n : Nat) :
    bytesToSamples (constPayload b0 b1 n) =
      some (List.replicate n (i16FromLE b0 b1)) := by
  induction n with
  | zero => rfl
  | succ k ih =>
    simp only [constPayload, List.replicate_succ, List.flatten_cons] at ih ⊢
    simp [bytesToSamples, ih, List.replicate_succ]

theorem constPayload_length (b0 b1 n : Nat) :
    (constPayload b0 b1 n).length = 2 * n := by
  induction n with
  | zero => rfl
  | succ k ih =>
    simp only [constPayload, List.replicate_succ, List.flatten_cons,
      List.length_append] at ih ⊢
    simp [ih]
    omega

theorem addInto_replicate (f : ℝ → ℝ) (a : ℝ) (s : Int) (n : Nat) :
    addInto f (List.replicate n a) (List.replicate n s) =
      List.replicate n (a + f (s : ℝ)) := by
  induction n with
  | zero => rfl
  | succ k ih => simp [List.replicate_succ, addInto, ih]

theorem globalSample_id (cfg : ChannelMixConfig) (x : ℝ) (h : |x| ≤ 32767 * 0.7) :
    globalSample cfg x = x := by
  have hlt : ¬ (32767 * 0.7 < |x|) := not_lt.mpr h
  have hlim : ¬ ((32767 : ℝ) ≤ |x|) := by
    rw [not_le]
    calc |x| ≤ 32767 * 0.7 := h
    _ < 32767 := by norm_num
  unfold globalSample
  rw [if_neg hlt, ite_self, if_neg hlim]

theorem mixBufferToSamples_replicate (x : ℝ) (n : Nat) :
    mixBufferToSamples (List.replicate n x) n =
      List.replicate n (i16OfReal x) := by
  simp [mixBufferToSamples, List.take_replicate, List.map_replicate]

/-! Two-voice mixing scenario (spec S2). -/

theorem constPayload_succ (b0 b1 m : Nat) :
    constPayload b0 b1 (m + 1) = b0 :: b1 :: constPayload b0 b1 m := by
  simp [constPayload, List.replicate_succ]

theorem processSample_clean (x : ℝ) (hx : 1 / 100 ≤ |x| / 32767) :
    processSample ctrlClean cfgAgcOff x = x := by
  have hpos : (0 : ℝ) < |x| / 32767 := lt_of_lt_of_le (by norm_num) hx
  have hg := gate_not_fire (|x| / 32767) hpos hx
  unfold processSample ctrlClean cfgAgcOff
  simp [hg]

theorem ps_clean_1000 :
    processSample ctrlClean cfgAgcOff ((1000 : ℤ) : ℝ) = 1000 := by
  rw [show (((1000 : ℤ) : ℝ)) = (1000 : ℝ) by norm_num]
  rw [processSample_clean 1000 (by rw [abs_of_pos] <;> norm_num)]

theorem ps_clean_2000 :
    processSample ctrlClean cfgAgcOff ((2000 : ℤ) : ℝ) = 2000 := by
  rw [show (((2000 : ℤ) : ℝ)) = (2000 : ℝ) by norm_num]
  rw [processSample_clean 2000 (by rw [abs_of_pos] <;> norm_num)]

theorem mixerS2_controls_A (uA uB cid : Uuid) :
    (mixerS2 uA uB cid).get_user_controls uA cid = ctrlClean := by
  simp [AudioMixer.get_user_controls, mixerS2, List.lookup]

theorem mixerS2_controls_B (uA uB cid : Uuid) (hAB : uA ≠ uB) :
    (mixerS2 uA uB cid).get_user_controls uB cid = ctrlClean := by
  have hne : ((uB, cid) == (uA, cid)) = false := by
    rw [beq_eq_false_iff_ne]
    intro h
    injection h with h1 h2
    exact hAB h1.symm
  simp [AudioMixer.get_user_controls, mixerS2, List.lookup, hne]

theorem mixerS2_cfg (uA uB cid : Uuid) :
    (mixerS2 uA uB cid).get_channel_config cid = cfgAgcOff := by
  simp [AudioMixer.get_channel_config, mixerS2, List.lookup]

theorem mixerS2_noSolo (uA uB cid : Uuid) (hAB : uA ≠ uB)
    (sq1 ts1 sr1 ch1 sq2 ts2 sr2 ch2 n : Nat) :
    (mixerS2 uA uB cid).hasSoloActive
      [pTone1000 uA cid sq1 ts1 sr1 ch1 n, pTone2000 uB cid sq2 ts2 sr2 ch2 n]
      cid = false := by
  unfold AudioMixer.hasSoloActive
  simp only [List.any_cons, List.any_nil, pTone1000, pTone2000]
  rw [mixerS2_controls_A, mixerS2_controls_B uA uB cid hAB]
  simp [ctrlClean]

theorem mixerS2_active (uA uB cid : Uuid) (hAB : uA ≠ uB)
    (sq1 ts1 sr1 ch1 sq2 ts2 sr2 ch2 m : Nat) :
    (mixerS2 uA uB cid).activePackets
        [pTone1000 uA cid sq1 ts1 sr1 ch1 (m + 1),
         pTone2000 uB cid sq2 ts2 sr2 ch2 (m + 1)] cid =
      [(pTone1000 uA cid sq1 ts1 sr1 ch1 (m + 1), ctrlClean),
       (pTone2000 uB cid sq2 ts2 sr2 ch2 (m + 1), ctrlClean)] := by
  unfold AudioMixer.activePackets
  rw [mixerS2_noSolo uA uB cid hAB, mixerS2_cfg]
  rw [AudioMixer.selectActive]
  simp only [pTone1000, pTone2000, constPayload_succ]
  rw [mixerS2_controls_A]
  simp only [AudioPacket.has_audio, ctrlClean, cfgAgcOff, List.isEmpty_cons,
    Bool.not_true, Bool.false_or, Bool.false_and, Bool.and_false]
  rw [AudioMixer.selectActive]
  simp [AudioMixer.selectActive, AudioPacket.has_audio, ctrlClean,
    mixerS2_controls_B uA uB cid hAB]

/-- C7 (amended): two Audio packets with identical sample count, one
constant +1000 and one constant +2000, mixed with AGC disabled, the default
noise-gate threshold, volume 1.0, and per-voice noise suppression and
high-pass disabled for both users, produce exactly the constant sample 3000
(within [2999, 3001]) and output length equal to the input sample count.
With fully-default user controls the suppression and high-pass stages fire
instead (see the counterexample). -/
theorem mix_sums_two_voices (n : Nat) (hn : 1 ≤ n) (uA uB cid : Uuid)
    (hAB : uA ≠ uB) (sq1 ts1 sr1 ch1 sq2 ts2 sr2 ch2 : Nat) :
    ((mixerS2 uA uB cid).mix_packets_advanced
        [pTone1000 uA cid sq1 ts1 sr1 ch1 n, pTone2000 uB cid sq2 ts2 sr2 ch2 n]
        cid).1 =
      some (samplesToBytes (List.replicate n 3000)) ∧
    bytesToSamples (samplesToBytes (List.replicate n 3000)) =
      some (List.replicate n 3000) ∧
    (samplesToBytes (List.replicate n 3000)).length = 2 * n ∧
    ∀ s ∈ List.replicate n (3000 : ℤ), 2999 ≤ s ∧ s ≤ 3001 := by
  obtain ⟨m, rfl⟩ : ∃ m, n = m + 1 := ⟨n - 1, by omega⟩
  refine ⟨?_, ?_, ?_, ?_⟩
  · unfold AudioMixer.mix_packets_advanced
    rw [if_neg (by simp)]
    simp only [mixerS2_active uA uB cid hAB sq1 ts1 sr1 ch1 sq2 ts2 sr2 ch2 m]
    simp only [pTone1000, pTone2000, constPayload_length, mixerS2_cfg,
      show (mixerS2 uA uB cid).mix_buffer = [] from rfl,
      show (mixerS2 uA uB cid).channels = 1 from rfl,
      List.length_nil, Nat.sub_zero, mul_one, List.nil_append]
    rw [show (2 * (m + 1)) / 2 = m + 1 from Nat.mul_div_cancel_left _ (by norm_num)]
    rw [if_neg (Nat.succ_ne_zero m)]
    rw [if_pos (Nat.succ_pos m)]
    simp only [accumVoices, List.foldl_cons, List.foldl_nil, Option.elim_some,
      bytesToSamples_constPayload,
      show i16FromLE 232 3 = 1000 from by decide,
      show i16FromLE 208 7 = 2000 from by decide,
      addInto_replicate, ps_clean_1000, zero_add, ps_clean_2000,
      show (1000 : ℝ) + 2000 = 3000 from by norm_num,
      List.map_replicate,
      globalSample_id cfgAgcOff 3000 (by rw [abs_of_pos] <;> norm_num),
      show applyAgc cfgAgcOff (List.replicate (m + 1) (3000 : ℝ)) =
        List.replicate (m + 1) (3000 : ℝ) from by simp [applyAgc, cfgAgcOff],
      mixBufferToSamples_replicate,
      show i16OfReal (3000 : ℝ) = 3000 from by
        rw [show ((3000 : ℝ)) = ((3000 : ℤ) : ℝ) by norm_num]
        exact i16OfReal_intCast 3000 (by norm_num) (by norm_num)]
  · refine bytesToSamples_samplesToBytes _ fun s hs => ?_
    rw [List.eq_of_mem_replicate hs]
    norm_num
  · rw [samplesToBytes_length, List.length_replicate]
  · intro s hs
    rw [List.eq_of_mem_replicate hs]
    norm_num

/-- Witness: `mix_sums_two_voices` at one sample and concrete ids. -/
theorem mix_sums_two_voices_witness :
    ((mixerS2 zeroUuid oneUuid twoUuid).mix_packets_advanced
        [pTone1000 zeroUuid twoUuid 0 0 48000 1 1,
         pTone2000 oneUuid twoUuid 0 0 48000 1 1] twoUuid).1 =
      some (samplesToBytes (List.replicate 1 3000)) ∧
    bytesToSamples (samplesToBytes (List.replicate 1 3000)) =
      some (List.replicate 1 3000) :=
  ⟨(mix_sums_two_voices 1 (by norm_num) zeroUuid oneUuid twoUuid (by decide)
      0 0 48000 1 0 0 48000 1).1,
   (mix_sums_two_voices 1 (by norm_num) zeroUuid oneUuid twoUuid (by decide)
      0 0 48000 1 0 0 48000 1).2.1⟩

theorem ps_default_1000 :
    processSample UserAudioControls.default cfgAgcOff ((1000 : ℤ) : ℝ) = 350 := by
  have hg : ¬ (20 * Real.logb 10 ((1000 : ℝ) / 32767) < -40) :=
    gate_not_fire _ (by norm_num) (by norm_num)
  unfold processSample UserAudioControls.default cfgAgcOff
  norm_num [abs_of_pos, hg]

theorem ps_default_2000 :
    processSample UserAudioControls.default cfgAgcOff ((2000 : ℤ) : ℝ) = 700 := by
  have hg : ¬ (20 * Real.logb 10 ((2000 : ℝ) / 32767) < -40) :=
    gate_not_fire _ (by norm_num) (by norm_num)
  unfold processSample UserAudioControls.default cfgAgcOff
  norm_num [abs_of_pos, hg]

theorem stS2Cex_controls (uid : Uuid) :
    stS2Cex.get_user_controls uid twoUuid = UserAudioControls.default := by
  simp [AudioMixer.get_user_controls, stS2Cex, List.lookup]

theorem stS2Cex_cfg : stS2Cex.get_channel_config twoUuid = cfgAgcOff := by
  simp [AudioMixer.get_channel_config, stS2Cex, List.lookup]

theorem stS2Cex_active :
    stS2Cex.activePackets
        [pTone1000 zeroUuid twoUuid 0 0 48000 1 1,
         pTone2000 oneUuid twoUuid 0 0 48000 1 1] twoUuid =
      [(pTone1000 zeroUuid twoUuid 0 0 48000 1 1, UserAudioControls.default),
       (pTone2000 oneUuid twoUuid 0 0 48000 1 1, UserAudioControls.default)] := by
  have hns : stS2Cex.hasSoloActive
      [pTone1000 zeroUuid twoUuid 0 0 48000 1 1,
       pTone2000 oneUuid twoUuid 0 0 48000 1 1] twoUuid = false := by
    unfold AudioMixer.hasSoloActive
    simp only [List.any_cons, List.any_nil, pTone1000, pTone2000]
    simp [stS2Cex_controls, UserAudioControls.default]
  unfold AudioMixer.activePackets
  rw [hns, stS2Cex_cfg]
  simp [AudioMixer.selectActive, pTone1000, pTone2000, AudioPacket.has_audio,
    stS2Cex_controls, UserAudioControls.default, constPayload, cfgAgcOff]

/-- C7 (counterexample): with fully-default user controls (noise
suppression 0.3, high-pass on) the 1000- and 2000-valued voices are scaled
to 350 and 700, so the mix sample is 1050, outside [2999, 3001]. -/
theorem mix_s2_default_controls_cex :
    ((stS2Cex.mix_packets_advanced
        [pTone1000 zeroUuid twoUuid 0 0 48000 1 1,
         pTone2000 oneUuid twoUuid 0 0 48000 1 1] twoUuid).1) =
      some (samplesToBytes [1050]) ∧
    bytesToSamples (samplesToBytes [1050]) = some [1050] ∧
    ¬ (2999 ≤ (1050 : ℤ)) := by
  refine ⟨?_, by decide, by decide⟩
  unfold AudioMixer.mix_packets_advanced
  rw [if_neg (by simp)]
  simp only [stS2Cex_active]
  simp only [pTone1000, pTone2000, constPayload_length, stS2Cex_cfg,
    show stS2Cex.mix_buffer = [] from rfl,
    show stS2Cex.channels = 1 from rfl,
    List.length_nil, Nat.sub_zero, mul_one, List.nil_append]
  norm_num
  simp only [accumVoices, List.foldl_cons, List.foldl_nil, Option.elim_some,
    bytesToSamples_constPayload,
    show i16FromLE 232 3 = 1000 from by decide,
    show i16FromLE 208 7 = 2000 from by decide,
    List.replicate_one, addInto,
    ps_default_1000, zero_add, ps_default_2000,
    show (350 : ℝ) + 700 = 1050 from by norm_num,
    List.map_cons, List.map_nil,
    globalSample_id cfgAgcOff 1050 (by rw [abs_of_pos] <;> norm_num),
    show applyAgc cfgAgcOff [(1050 : ℝ)] = [(1050 : ℝ)] from by
      simp [applyAgc, cfgAgcOff]]
  rw [show ([(1050 : ℝ)]) = List.replicate 1 (1050 : ℝ) from rfl,
    mixBufferToSamples_replicate]
  rw [show i16OfReal (1050 : ℝ) = 1050 from by
    rw [show ((1050 : ℝ)) = ((1050 : ℤ) : ℝ) by norm_num]
    exact i16OfReal_intCast 1050 (by norm_num) (by norm_num)]
  rfl

/-! Output range of the mixer (clip safety). -/

theorem i16OfReal_range (x : ℝ) : -32768 ≤ i16OfReal x ∧ i16OfReal x ≤ 32767 := by
  unfold i16OfReal rclamp
  have h1 : (-32768 : ℝ) ≤ max (-32768 : ℝ) (min x 32767) := le_max_left _ _
  have h2 : max (-32768 : ℝ) (min x 32767) ≤ 32767 :=
    max_le (by norm_num) (min_le_right _ _)
  by_cases h0 : (0 : ℝ) ≤ max (-32768 : ℝ) (min x 32767)
  · rw [if_pos h0]
    constructor
    · exact Int.le_floor.mpr (by exact_mod_cast h1)
    · have hf := Int.floor_le_floor h2
      have hfe : (⌊(32767 : ℝ)⌋ : ℤ) = 32767 := by
        rw [show ((32767 : ℝ)) = ((32767 : ℤ) : ℝ) by norm_num]
        exact Int.floor_intCast _
      rwa [hfe] at hf
  · rw [if_neg h0]
    constructor
    · have hc := Int.ceil_le_ceil h1
      have hce : (⌈(-32768 : ℝ)⌉ : ℤ) = -32768 := by
        rw [show ((-32768 : ℝ)) = ((-32768 : ℤ) : ℝ) by norm_num]
        exact Int.ceil_intCast _
      rwa [hce] at hc
    · exact Int.ceil_le.mpr (by exact_mod_cast h2)

theorem i16OfReal_zero : i16OfReal (0 : ℝ) = 0 := by
  rw [show ((0 : ℝ)) = ((0 : ℤ) : ℝ) by norm_num]
  exact i16OfReal_intCast 0 (by norm_num) (by norm_num)

theorem mixBufferToSamples_range (buf : List ℝ) (n : Nat) (s : Int)
    (hs : s ∈ mixBufferToSamples buf n) : -32768 ≤ s ∧ s ≤ 32767 := by
  unfold mixBufferToSamples at hs
  rcases List.mem_append.mp hs with h | h
  · obtain ⟨x, hx, rfl⟩ := List.mem_map.mp h
    exact i16OfReal_range x
  · rw [List.eq_of_mem_replicate h]
    norm_num

theorem mix_output_shape (st : AudioMixer) (packets : List AudioPacket)
    (cid : Uuid) (out : List Nat)
    (hout : (st.mix_packets_advanced packets cid).1 = some out) :
    ∃ buf sc, out = samplesToBytes (mixBufferToSamples buf sc) := by
  unfold AudioMixer.mix_packets_advanced at hout
  by_cases hemp : packets.isEmpty
  · rw [if_pos hemp] at hout
    simp at hout
  · rw [if_neg hemp] at hout
    rcases hq : st.activePackets packets cid with _ | ⟨⟨p0, c0⟩, restA⟩
    · rw [hq] at hout
      simp at hout
    · simp only [hq] at hout
      by_cases hsc : p0.payload.length / 2 = 0
      · rw [if_pos hsc] at hout
        simp at hout
      · rw [if_neg hsc] at hout
        simp only at hout
        exact ⟨_, _, (Option.some.injEq _ _ ▸ hout).symm⟩

/-- C3 (amended): every 16-bit sample decoded from the mixer's output bytes
lies in the full i16 range [-32768, 32767]; the tighter bound
[I16_MIN+1, I16_MAX-1] does not hold because AGC runs after the limiter and
the final conversion clamps to i16::MIN..i16::MAX. -/
theorem mix_output_sample_range (st : AudioMixer) (packets : List AudioPacket)
    (cid : Uuid) (out : List Nat) (ss : List Int) (s : Int)
    (hout : (st.mix_packets_advanced packets cid).1 = some out)
    (hdec : bytesToSamples out = some ss) (hs : s ∈ ss) :
    -32768 ≤ s ∧ s ≤ 32767 := by
  obtain ⟨buf, sc, rfl⟩ := mix_output_shape st packets cid out hout
  rw [bytesToSamples_samplesToBytes _
    (fun t ht => mixBufferToSamples_range buf sc t ht)] at hdec
  obtain rfl : mixBufferToSamples buf sc = ss := Option.some.injEq _ _ ▸ hdec
  exact mixBufferToSamples_range buf sc s hs

theorem stDefault_active_zero :
    stDefaultMixer.activePackets [pZeroOne] twoUuid =
      [(pZeroOne, UserAudioControls.default)] := by
  simp [AudioMixer.activePackets, AudioMixer.selectActive, AudioMixer.hasSoloActive,
    AudioMixer.get_user_controls, AudioMixer.get_channel_config, stDefaultMixer,
    AudioMixer.new, List.lookup, pZeroOne, mkAudio, AudioPacket.has_audio,
    UserAudioControls.default, ChannelMixConfig.default]

theorem stDefault_mix_zero :
    (stDefaultMixer.mix_packets_advanced [pZeroOne] twoUuid).1 = some [0, 0] := by
  unfold AudioMixer.mix_packets_advanced
  rw [if_neg (by simp)]
  simp only [stDefault_active_zero]
  simp only [pZeroOne, mkAudio,
    show stDefaultMixer.get_channel_config twoUuid = ChannelMixConfig.default from by
      simp [AudioMixer.get_channel_config, stDefaultMixer, AudioMixer.new, List.lookup],
    show stDefaultMixer.mix_buffer = [] from rfl,
    show stDefaultMixer.channels = 1 from rfl,
    List.length_nil, Nat.sub_zero, mul_one, List.nil_append]
  norm_num
  simp only [accumVoices, List.foldl_cons, List.foldl_nil, Option.elim_some,
    show bytesToSamples [0, 0] = some [(0 : ℤ)] from by decide,
    addInto, Int.cast_zero, processSample_zero, add_zero,
    List.map_cons, List.map_nil,
    globalSample_id ChannelMixConfig.default 0 (by rw [abs_of_nonneg] <;> norm_num),
    show applyAgc ChannelMixConfig.default [(0 : ℝ)] = [(0 : ℝ)] from by
      simp [applyAgc, ChannelMixConfig.default, rmsLevel]]
  rw [show ([(0 : ℝ)]) = List.replicate 1 (0 : ℝ) from rfl, mixBufferToSamples_replicate]
  rw [i16OfReal_zero]
  rfl

/-- Witness: `mix_output_sample_range` on a concrete zero-sample mix. -/
theorem mix_output_sample_range_witness :
    (stDefaultMixer.mix_packets_advanced [pZeroOne] twoUuid).1 = some [0, 0] ∧
    bytesToSamples [0, 0] = some [0] ∧
    ((-32768 : ℤ) ≤ 0 ∧ (0 : ℤ) ≤ 32767) :=
  ⟨stDefault_mix_zero, by decide,
   mix_output_sample_range stDefaultMixer [pZeroOne] twoUuid [0, 0] [0] 0
     stDefault_mix_zero (by decide) (by decide)⟩

theorem ps_default_neg32768 :
    processSample UserAudioControls.default cfgAgcOnCompOff ((-32768 : ℤ) : ℝ) =
      -32768 := by
  have hg : ¬ (20 * Real.logb 10 ((32768 : ℝ) / 32767) < -40) :=
    gate_not_fire _ (by norm_num) (by norm_num)
  have habs : |(-32768 : ℝ)| = 32768 := by
    rw [abs_of_neg] <;> norm_num
  unfold processSample UserAudioControls.default cfgAgcOnCompOff
  norm_num [habs, hg]

theorem gs_compOff_neg32768 :
    globalSample cfgAgcOnCompOff (-32768 : ℝ) = -32766 := by
  have habs : |(-32768 : ℝ)| = 32768 := by
    rw [abs_of_neg] <;> norm_num
  unfold globalSample cfgAgcOnCompOff rsign
  norm_num [habs]

theorem rms_clip : rmsLevel ((-32766 : ℝ) :: List.replicate 48 0) = 32766 / 7 := by
  have h1 : ((((-32766 : ℝ) :: List.replicate 48 0).map fun s => s * s).sum) =
      32766 ^ 2 := by
    simp [List.sum_replicate]
    ring
  have h2 : ((((-32766 : ℝ) :: List.replicate 48 0).length : ℕ) : ℝ) = 49 := by
    simp
  unfold rmsLevel
  rw [h1, h2]
  rw [show ((32766 : ℝ) ^ 2 / 49) = (32766 / 7) ^ 2 from by ring]
  exact Real.sqrt_sq (by norm_num)

theorem agc_clip :
    applyAgc cfgAgcOnCompOff ((-32766 : ℝ) :: List.replicate 48 0) =
      (-65532 : ℝ) :: List.replicate 48 0 := by
  have hgain : rclamp (32767 * 0.3 / (32766 / 7)) 0.1 2.0 = 2 := by
    unfold rclamp
    rw [min_eq_right (by norm_num), max_eq_right (by norm_num)]
    norm_num
  unfold applyAgc cfgAgcOnCompOff
  simp only [rms_clip]
  rw [if_pos (by norm_num : (0 : ℝ) < 32766 / 7)]
  rw [hgain]
  simp only [List.map_cons, List.map_replicate]
  norm_num

theorem i16OfReal_neg65532 : i16OfReal (-65532 : ℝ) = -32768 := by
  unfold i16OfReal rclamp
  rw [min_eq_left (by norm_num), max_eq_left (by norm_num)]
  rw [if_neg (by norm_num)]
  rw [show ((-32768 : ℝ)) = ((-32768 : ℤ) : ℝ) by norm_num, Int.ceil_intCast]

theorem mbts_clip :
    mixBufferToSamples ((-65532 : ℝ) :: List.replicate 48 0) 49 =
      (-32768 : ℤ) :: List.replicate 48 0 := by
  unfold mixBufferToSamples
  rw [List.take_of_length_le (by simp)]
  simp [List.map_cons, List.map_replicate, i16OfReal_neg65532, i16OfReal_zero]

theorem accum_clip :
    addInto (processSample UserAudioControls.default cfgAgcOnCompOff)
        ((0 : ℝ) :: List.replicate 48 0)
        ((-32768 : ℤ) :: List.replicate 48 (0 : ℤ)) =
      (-32768 : ℝ) :: List.replicate 48 0 := by
  rw [show addInto (processSample UserAudioControls.default cfgAgcOnCompOff)
      ((0 : ℝ) :: List.replicate 48 0)
      ((-32768 : ℤ) :: List.replicate 48 (0 : ℤ)) =
      ((0 : ℝ) + processSample UserAudioControls.default cfgAgcOnCompOff
          (((-32768 : ℤ) : ℤ) : ℝ)) ::
        addInto (processSample UserAudioControls.default cfgAgcOnCompOff)
          (List.replicate 48 0) (List.replicate 48 (0 : ℤ)) from rfl]
  rw [addInto_replicate]
  rw [ps_default_neg32768, zero_add]
  rw [show (((0 : ℤ)) : ℝ) = (0 : ℝ) from by norm_num]
  rw [processSample_zero, add_zero]

theorem map_global_clip :
    List.map (globalSample cfgAgcOnCompOff) ((-32768 : ℝ) :: List.replicate 48 0) =
      (-32766 : ℝ) :: List.replicate 48 0 := by
  rw [List.map_cons, List.map_replicate, gs_compOff_neg32768,
    globalSample_id cfgAgcOnCompOff 0 (by rw [abs_of_nonneg] <;> norm_num)]

theorem stClip_active :
    stClip.activePackets [pClip] twoUuid = [(pClip, UserAudioControls.default)] := by
  have hns : stClip.hasSoloActive [pClip] twoUuid = false := by
    unfold AudioMixer.hasSoloActive
    simp [AudioMixer.get_user_controls, stClip, List.lookup,
      UserAudioControls.default]
  have hcfg : stClip.get_channel_config twoUuid = cfgAgcOnCompOff := by
    simp [AudioMixer.get_channel_config, stClip, List.lookup]
  unfold AudioMixer.activePackets
  rw [hns, hcfg]
  simp [AudioMixer.selectActive, pClip, mkAudio, AudioPacket.has_audio,
    AudioMixer.get_user_controls, stClip, List.lookup, UserAudioControls.default,
    cfgAgcOnCompOff, constPayload]

/-- C3 (counterexample): with AGC enabled and compression off, a packet
holding one -32768 sample and 48 zeros is limited to -32766, then AGC
(gain clamped at 2) doubles it to -65532, and the final clamp emits -32768,
outside the claimed [-32767, 32766]. -/
theorem mix_clip_range_cex :
    (stClip.mix_packets_advanced [pClip] twoUuid).1 =
      some (samplesToBytes ((-32768 : ℤ) :: List.replicate 48 0)) ∧
    bytesToSamples (samplesToBytes ((-32768 : ℤ) :: List.replicate 48 0)) =
      some ((-32768 : ℤ) :: List.replicate 48 0) ∧
    ¬ ((-32767 : ℤ) ≤ -32768) := by
  refine ⟨?_, ?_, by decide⟩
  · unfold AudioMixer.mix_packets_advanced
    rw [if_neg (by simp)]
    simp only [stClip_active]
    simp only [pClip, mkAudio, constPayload_length, List.length_append,
      List.length_cons, List.length_nil,
      show stClip.get_channel_config twoUuid = cfgAgcOnCompOff from by
        simp [AudioMixer.get_channel_config, stClip, List.lookup],
      show stClip.mix_buffer = [] from rfl,
      show stClip.channels = 1 from rfl,
      Nat.sub_zero, mul_one]
    norm_num
    simp only [accumVoices, List.foldl_cons, List.foldl_nil]
    rw [show bytesToSamples (0 :: 128 :: constPayload 0 0 48) =
        some ((-32768 : ℤ) :: List.replicate 48 (0 : ℤ)) from by
      simp only [bytesToSamples, bytesToSamples_constPayload,
        show i16FromLE 0 0 = 0 from by decide,
        show i16FromLE 0 128 = -32768 from by decide]
      rfl]
    rw [Option.elim_some]
    rw [show (List.replicate 49 (0 : ℝ)) = (0 : ℝ) :: List.replicate 48 0 from rfl]
    rw [accum_clip, map_global_clip, agc_clip, mbts_clip]
  · refine bytesToSamples_samplesToBytes _ fun s hs => ?_
    rcases List.mem_cons.mp hs with rfl | hs
    · norm_num
    · rw [List.eq_of_mem_replicate hs]
      norm_num

/-! Mix-buffer state leak across calls. -/

theorem ps_plain_10000 :
    processSample UserAudioControls.default cfgPlain ((10000 : ℤ) : ℝ) = 10000 := by
  have habs : |(10000 : ℝ)| = 10000 := by
    rw [abs_of_pos] <;> norm_num
  unfold processSample UserAudioControls.default cfgPlain
  norm_num [habs]

theorem i16OfReal_10000 : i16OfReal (10000 : ℝ) = 10000 := by
  rw [show ((10000 : ℝ)) = ((10000 : ℤ) : ℝ) by norm_num]
  exact i16OfReal_intCast 10000 (by norm_num) (by norm_num)

theorem stLeakBase_cfg : stLeakBase.get_channel_config twoUuid = cfgPlain := by
  simp [AudioMixer.get_channel_config, stLeakBase, List.lookup]

theorem stLeakStale_cfg : stLeakStale.get_channel_config twoUuid = cfgPlain := by
  simp [AudioMixer.get_channel_config, stLeakStale, List.lookup]

theorem stLeakBase_active_ten :
    stLeakBase.activePackets [pTen] twoUuid = [(pTen, UserAudioControls.default)] := by
  have hns : stLeakBase.hasSoloActive [pTen] twoUuid = false := by
    unfold AudioMixer.hasSoloActive
    simp [AudioMixer.get_user_controls, stLeakBase, List.lookup,
      UserAudioControls.default]
  unfold AudioMixer.activePackets
  rw [hns, stLeakBase_cfg]
  simp [AudioMixer.selectActive, pTen, mkAudio, AudioPacket.has_audio,
    AudioMixer.get_user_controls, stLeakBase, List.lookup,
    UserAudioControls.default, cfgPlain]

theorem stLeakBase_active_zero :
    stLeakBase.activePackets [pZeroTwo] twoUuid =
      [(pZeroTwo, UserAudioControls.default)] := by
  have hns : stLeakBase.hasSoloActive [pZeroTwo] twoUuid = false := by
    unfold AudioMixer.hasSoloActive
    simp [AudioMixer.get_user_controls, stLeakBase, List.lookup,
      UserAudioControls.default]
  unfold AudioMixer.activePackets
  rw [hns, stLeakBase_cfg]
  simp [AudioMixer.selectActive, pZeroTwo, mkAudio, AudioPacket.has_audio,
    AudioMixer.get_user_controls, stLeakBase, List.lookup,
    UserAudioControls.default, cfgPlain]

theorem stLeakStale_active_zero :
    stLeakStale.activePackets [pZeroTwo] twoUuid =
      [(pZeroTwo, UserAudioControls.default)] := by
  have hns : stLeakStale.hasSoloActive [pZeroTwo] twoUuid = false := by
    unfold AudioMixer.hasSoloActive
    simp [AudioMixer.get_user_controls, stLeakStale, List.lookup,
      UserAudioControls.default]
  unfold AudioMixer.activePackets
  rw [hns, stLeakStale_cfg]
  simp [AudioMixer.selectActive, pZeroTwo, mkAudio, AudioPacket.has_audio,
    AudioMixer.get_user_controls, stLeakStale, List.lookup,
    UserAudioControls.default, cfgPlain]

theorem stLeak_mix_ten :
    stLeakBase.mix_packets_advanced [pTen] twoUuid = (some [16, 39], stLeakStale) := by
  unfold AudioMixer.mix_packets_advanced
  rw [if_neg (by simp)]
  simp only [stLeakBase_active_ten]
  simp only [pTen, mkAudio, stLeakBase_cfg,
    show stLeakBase.mix_buffer = [] from rfl,
    show stLeakBase.channels = 1 from rfl,
    List.length_nil, List.length_cons, Nat.sub_zero, mul_one]
  norm_num
  simp only [accumVoices, List.foldl_cons, List.foldl_nil, Option.elim_some,
    show bytesToSamples [16, 39] = some [(10000 : ℤ)] from by decide,
    List.replicate_one, addInto, ps_plain_10000, zero_add,
    List.map_cons, List.map_nil,
    globalSample_id cfgPlain 10000 (by rw [abs_of_pos] <;> norm_num),
    show applyAgc cfgPlain [(10000 : ℝ)] = [(10000 : ℝ)] from by
      simp [applyAgc, cfgPlain]]
  rw [show ([(10000 : ℝ)]) = List.replicate 1 (10000 : ℝ) from rfl,
    mixBufferToSamples_replicate, i16OfReal_10000]
  rw [show stLeakStale = ⟨[], [(twoUuid, cfgPlain)], [(10000 : ℝ)], 48000, 1⟩ from rfl]
  rw [show stLeakBase = ⟨[], [(twoUuid, cfgPlain)], [], 48000, 1⟩ from rfl]
  exact ⟨by decide, rfl⟩

theorem stLeakAfter_eq : stLeakAfter = stLeakStale := by
  unfold stLeakAfter
  rw [stLeak_mix_ten]

theorem stLeakStale_mix_zero :
    (stLeakStale.mix_packets_advanced [pZeroTwo] twoUuid).1 =
      some [16, 39, 0, 0] := by
  unfold AudioMixer.mix_packets_advanced
  rw [if_neg (by simp)]
  simp only [stLeakStale_active_zero]
  simp only [pZeroTwo, mkAudio, stLeakStale_cfg,
    show stLeakStale.mix_buffer = [(10000 : ℝ)] from rfl,
    show stLeakStale.channels = 1 from rfl,
    List.length_cons, List.length_nil, Nat.sub_zero, mul_one]
  norm_num
  simp only [accumVoices, List.foldl_cons, List.foldl_nil, Option.elim_some,
    show bytesToSamples [0, 0, 0, 0] = some [(0 : ℤ), 0] from by decide,
    List.replicate_one, addInto, Int.cast_zero, processSample_zero,
    add_zero, zero_add, List.cons_append, List.nil_append,
    List.map_cons, List.map_nil,
    globalSample_id cfgPlain 10000 (by rw [abs_of_pos] <;> norm_num),
    globalSample_id cfgPlain 0 (by rw [abs_of_nonneg] <;> norm_num),
    show applyAgc cfgPlain [(10000 : ℝ), 0] = [(10000 : ℝ), 0] from by
      simp [applyAgc, cfgPlain]]
  rw [show mixBufferToSamples [(10000 : ℝ), 0] 2 =
      [i16OfReal 10000, i16OfReal 0] from by
    unfold mixBufferToSamples
    rw [List.take_of_length_le (by simp)]
    simp]
  rw [i16OfReal_10000, i16OfReal_zero]
  rfl

theorem stLeakBase_mix_zero :
    (stLeakBase.mix_packets_advanced [pZeroTwo] twoUuid).1 =
      some [0, 0, 0, 0] := by
  unfold AudioMixer.mix_packets_advanced
  rw [if_neg (by simp)]
  simp only [stLeakBase_active_zero]
  simp only [pZeroTwo, mkAudio, stLeakBase_cfg,
    show stLeakBase.mix_buffer = [] from rfl,
    show stLeakBase.channels = 1 from rfl,
    List.length_cons, List.length_nil, Nat.sub_zero, mul_one]
  norm_num
  simp only [accumVoices, List.foldl_cons, List.foldl_nil, Option.elim_some,
    show bytesToSamples [0, 0, 0, 0] = some [(0 : ℤ), 0] from by decide,
    show (List.replicate 2 (0 : ℝ)) = [(0 : ℝ), 0] from rfl,
    addInto, Int.cast_zero, processSample_zero, add_zero, zero_add,
    List.map_cons, List.map_nil,
    globalSample_id cfgPlain 0 (by rw [abs_of_nonneg] <;> norm_num),
    show applyAgc cfgPlain [(0 : ℝ), 0] = [(0 : ℝ), 0] from by
      simp [applyAgc, cfgPlain, rmsLevel]]
  rw [show mixBufferToSamples [(0 : ℝ), 0] 2 = [i16OfReal 0, i16OfReal 0] from by
    unfold mixBufferToSamples
    rw [List.take_of_length_le (by simp)]
    simp]
  rw [i16OfReal_zero]
  rfl

/-- C10: the mixer's mix is NOT deterministic in its visible inputs.  After
an earlier mix left one sample in `mix_buffer`, a later mix that needs a
larger buffer grows it with `Vec::resize`, which keeps the stale prefix
without zeroing it, so the stale sample is added into the new mix: two
mixers with identical user-control and channel-config tables return
different bytes for the same packets. -/
theorem mix_state_leak_bug :
    stLeakAfter.user_controls = stLeakBase.user_controls ∧
    stLeakAfter.channel_configs = stLeakBase.channel_configs ∧
    (stLeakAfter.mix_packets_advanced [pZeroTwo] twoUuid).1 = some [16, 39, 0, 0] ∧
    (stLeakBase.mix_packets_advanced [pZeroTwo] twoUuid).1 = some [0, 0, 0, 0] ∧
    (stLeakAfter.mix_packets_advanced [pZeroTwo] twoUuid).1 ≠
      (stLeakBase.mix_packets_advanced [pZeroTwo] twoUuid).1 := by
  have h1 : (stLeakAfter.mix_packets_advanced [pZeroTwo] twoUuid).1 =
      some [16, 39, 0, 0] := by
    rw [stLeakAfter_eq]
    exact stLeakStale_mix_zero
  refine ⟨by rw [stLeakAfter_eq]; rfl, by rw [stLeakAfter_eq]; rfl, h1,
    stLeakBase_mix_zero, ?_⟩
  rw [h1, stLeakBase_mix_zero]
  decide

end VoiceChat
